import Mathlib

/-!
Verification development for the browserAnnotations rendering engine.

The definitions below are a shallow embedding of the JavaScript sources:
times and coordinates are exact rationals, JS objects with optional keys
become structures with `Option` fields, fallible constructors return
`Except`, and exception flow in render loops is made explicit.  Each
definition's doc comment names the source function it embeds.
-/

/-- The `timeRange` object of an annotation record
(`src/annotations/annotation-manifest.js`); either key may be absent,
mirroring a partial JS object literal. -/
structure TimeRange where
  startMs : Option ℚ
  endMs : Option ℚ
deriving DecidableEq

/-- `Annotation.isVisibleAt(timeMs)` from
`src/annotations/annotation-manifest.js` lines 80-85: a missing
`timeRange` is never visible; a missing `startMs` defaults to `0`; a
missing `endMs` defaults to `Infinity`, so the upper comparison is then
always true; otherwise the window is closed at both ends. -/
def isVisibleAt (timeRange : Option TimeRange) (timeMs : ℚ) : Bool :=
  match timeRange with
  | none => false
  | some r =>
    decide (r.startMs.getD 0 ≤ timeMs) &&
      (match r.endMs with
       | none => true
       | some e => decide (timeMs ≤ e))

/-- `BaseRenderer._isAnnotationVisible(annotation, currentTimeMs)` from
`src/annotations/renderers/base-renderer.js` lines 269-276: no defaults
are applied there, and a JS comparison against `undefined` is false, so
a missing `startMs` or `endMs` makes the predicate false. -/
def isAnnVisibleR (timeRange : Option TimeRange) (currentTimeMs : ℚ) : Bool :=
  match timeRange with
  | none => false
  | some r =>
    match r.startMs, r.endMs with
    | some s, some e => decide (s ≤ currentTimeMs) && decide (currentTimeMs ≤ e)
    | _, _ => false

/-- A trajectory waypoint `{x, y, timeMs}` (normalized coordinates). -/
structure TPoint where
  x : ℚ
  y : ℚ
  timeMs : ℚ
deriving DecidableEq

/-- Placeholder used for `List.get?` defaults at indices the JS callers
guarantee to be in range. -/
def dummyPt : TPoint := ⟨0, 0, 0⟩

/-- `BaseRenderer.lerp(start, end, t)` from `base-renderer.js` line 406. -/
def lerpQ (start stop t : ℚ) : ℚ :=
  start + (stop - start) * t

/-- Whether the waypoint pair at indices `i`, `i+1` brackets the query
time: the loop body condition of `BaseRenderer.getInterpolatedPosition`
(`base-renderer.js` lines 428-439). -/
def bracketPred (points : List TPoint) (T : ℚ) (i : ℕ) : Bool :=
  match points.get? i, points.get? (i + 1) with
  | some p, some q => decide (p.timeMs ≤ T) && decide (T ≤ q.timeMs)
  | _, _ => false

/-- The `for` scan of `BaseRenderer.getInterpolatedPosition` (also used
verbatim by `TrajectoryRenderer.getInterpolatedPositionOnSmoothCurve`):
the first index `i < points.length - 1` whose pair brackets `T`. -/
def findBracketIdx (points : List TPoint) (T : ℚ) : Option ℕ :=
  (List.range (points.length - 1)).find? (bracketPred points T)

/-- The interpolation factor of the bracketed branch of
`BaseRenderer.getInterpolatedPosition` (lines 450-451):
`(T - p.timeMs) / (q.timeMs - p.timeMs)` when the denominator is
positive, `0` otherwise. -/
def linFactor (p q : TPoint) (T : ℚ) : ℚ :=
  if 0 < q.timeMs - p.timeMs then (T - p.timeMs) / (q.timeMs - p.timeMs) else 0

/-- `BaseRenderer._getControlPoint(points, index, isFirst)` from
`base-renderer.js` lines 505-534 (smoothing factor 0.3; the missing
neighbour of a JS out-of-range access defaults to the current point). -/
def getControlPoint (points : List TPoint) (index : ℕ) (isFirst : Bool) : ℚ × ℚ :=
  let current := (points.get? index).getD dummyPt
  if points.length < 3 then (current.x, current.y)
  else
    let prev := if 0 < index then (points.get? (index - 1)).getD current else current
    let next :=
      if isFirst then (points.get? (index + 1)).getD current
      else if index + 1 < points.length then (points.get? (index + 1)).getD current
      else current
    let tangentX := (next.x - prev.x) * (3 / 10)
    let tangentY := (next.y - prev.y) * (3 / 10)
    let direction : ℚ := if isFirst then 1 else -1
    (current.x + direction * tangentX, current.y + direction * tangentY)

/-- `BaseRenderer._bezierInterpolation(points, beforeIndex, afterIndex, t)`
from `base-renderer.js` lines 475-495: the cubic Bernstein blend of the
two segment endpoints and the two control points. -/
def bezierInterpolation (points : List TPoint) (beforeIndex afterIndex : ℕ) (t : ℚ) : TPoint :=
  let p1 := (points.get? beforeIndex).getD dummyPt
  let p2 := (points.get? afterIndex).getD dummyPt
  let c1 := getControlPoint points beforeIndex true
  let c2 := getControlPoint points afterIndex false
  let t2 := t * t
  let t3 := t2 * t
  let mt := 1 - t
  let mt2 := mt * mt
  let mt3 := mt2 * mt
  ⟨mt3 * p1.x + 3 * mt2 * t * c1.1 + 3 * mt * t2 * c2.1 + t3 * p2.x,
   mt3 * p1.y + 3 * mt2 * t * c1.2 + 3 * mt * t2 * c2.2 + t3 * p2.y,
   p1.timeMs + t * (p2.timeMs - p1.timeMs)⟩

/-- `BaseRenderer.getInterpolatedPosition(points, currentTimeMs,
interpolation)` from `base-renderer.js` lines 418-464: empty list gives
null, a single waypoint is returned as is, a bracketing pair is blended
(cubic only when `interpolation === "bezier"` and at least 3 waypoints),
and with no bracketing pair the result is clamped to the first/last
waypoint or null. -/
def getInterpolatedPosition (points : List TPoint) (currentTimeMs : ℚ)
    (interpolation : String) : Option TPoint :=
  if points.length = 0 then none
  else if points.length = 1 then points.get? 0
  else
    match findBracketIdx points currentTimeMs with
    | none =>
      let p0 := (points.get? 0).getD dummyPt
      let plast := (points.get? (points.length - 1)).getD dummyPt
      if currentTimeMs ≤ p0.timeMs then some p0
      else if plast.timeMs ≤ currentTimeMs then some plast
      else none
    | some i =>
      let bp := (points.get? i).getD dummyPt
      let ap := (points.get? (i + 1)).getD dummyPt
      let t := linFactor bp ap currentTimeMs
      if interpolation = "bezier" ∧ 3 ≤ points.length then
        some (bezierInterpolation points i (i + 1) t)
      else
        some ⟨lerpQ bp.x ap.x t, lerpQ bp.y ap.y t, currentTimeMs⟩

/-- The eight numbers `TrajectoryRenderer.calculateBezierControlPoints`
returns (segment endpoints plus the two cubic control points). -/
structure CtrlPts where
  startX : ℚ
  startY : ℚ
  cp1x : ℚ
  cp1y : ℚ
  cp2x : ℚ
  cp2y : ℚ
  endX : ℚ
  endY : ℚ
deriving DecidableEq

/-- `TrajectoryRenderer.calculateBezierControlPoints(points, segmentIndex)`
from `src/unnamed/part_000` lines 333-370: smoothing factor 0.2; the first
control point uses the tangent `next - prev` when a previous waypoint
exists, the second uses `nextNext - current` when a next-next waypoint
exists; otherwise the control point degrades to the segment endpoint. -/
def calculateBezierControlPoints (points : List TPoint) (segmentIndex : ℕ) : CtrlPts :=
  let currentPoint := (points.get? segmentIndex).getD dummyPt
  let nextPoint := (points.get? (segmentIndex + 1)).getD dummyPt
  let smoothingFactor : ℚ := 1 / 5
  let cp1 : ℚ × ℚ :=
    if 0 < segmentIndex then
      let prevPoint := (points.get? (segmentIndex - 1)).getD dummyPt
      (currentPoint.x + (nextPoint.x - prevPoint.x) * smoothingFactor,
       currentPoint.y + (nextPoint.y - prevPoint.y) * smoothingFactor)
    else (currentPoint.x, currentPoint.y)
  let cp2 : ℚ × ℚ :=
    if segmentIndex + 2 < points.length then
      let nextNextPoint := (points.get? (segmentIndex + 2)).getD dummyPt
      (nextPoint.x - (nextNextPoint.x - currentPoint.x) * smoothingFactor,
       nextPoint.y - (nextNextPoint.y - currentPoint.y) * smoothingFactor)
    else (nextPoint.x, nextPoint.y)
  ⟨currentPoint.x, currentPoint.y, cp1.1, cp1.2, cp2.1, cp2.2, nextPoint.x, nextPoint.y⟩

/-- Control points as the specification words them: they "derive from the
segment endpoints plus a fixed smoothing factor (0.2) applied to a
tangent estimated from neighboring waypoints (previous waypoint for the
first control point, next-next for the second; missing neighbors at
sequence boundaries degrade to a zero tangent)".  Stated independently of
the source to compare against `calculateBezierControlPoints`. -/
def specCtrlPts (points : List TPoint) (segmentIndex : ℕ) : CtrlPts :=
  let pCur := (points.get? segmentIndex).getD dummyPt
  let pNext := (points.get? (segmentIndex + 1)).getD dummyPt
  let tangent1 : ℚ × ℚ :=
    if 0 < segmentIndex then
      let pPrev := (points.get? (segmentIndex - 1)).getD dummyPt
      (pNext.x - pPrev.x, pNext.y - pPrev.y)
    else (0, 0)
  let tangent2 : ℚ × ℚ :=
    if segmentIndex + 2 < points.length then
      let pNN := (points.get? (segmentIndex + 2)).getD dummyPt
      (pNN.x - pCur.x, pNN.y - pCur.y)
    else (0, 0)
  ⟨pCur.x, pCur.y,
   pCur.x + tangent1.1 * (1 / 5), pCur.y + tangent1.2 * (1 / 5),
   pNext.x - tangent2.1 * (1 / 5), pNext.y - tangent2.2 * (1 / 5),
   pNext.x, pNext.y⟩

/-- The cubic Bernstein blend written exactly as the body of
`TrajectoryRenderer.getInterpolatedPositionOnSmoothCurve`
(`src/unnamed/part_000` lines 415-431). -/
def bezierBlend (p0 c1 c2 p1 t : ℚ) : ℚ :=
  let oneMinusT := 1 - t
  oneMinusT * oneMinusT * oneMinusT * p0 + 3 * (oneMinusT * oneMinusT) * t * c1 +
    3 * oneMinusT * (t * t) * c2 + (t * t * t) * p1

/-- The point at parameter `t` on segment `segmentIndex` of the stroked
path.  `TrajectoryRenderer.drawSmoothCurve` strokes segment `i` with
`ctx.bezierCurveTo(cp1, cp2, end)` starting from the canvas position
`points[i]` (which equals the `startX`/`startY` of the control-point
record), so the stroked segment is the standard cubic with these four
control points; this definition is that parametric curve. -/
def strokedCurvePoint (points : List TPoint) (segmentIndex : ℕ) (t : ℚ) : ℚ × ℚ :=
  let cps := calculateBezierControlPoints points segmentIndex
  (bezierBlend cps.startX cps.cp1x cps.cp2x cps.endX t,
   bezierBlend cps.startY cps.cp1y cps.cp2y cps.endY t)

/-- The segment-local parameter of
`TrajectoryRenderer.getInterpolatedPositionOnSmoothCurve` (lines 406-410):
`(T - current.timeMs) / segmentDuration` when the duration is positive,
`0` otherwise. -/
def segmentLocalT (points : List TPoint) (segmentIndex : ℕ) (T : ℚ) : ℚ :=
  let currentPoint := (points.get? segmentIndex).getD dummyPt
  let nextPoint := (points.get? (segmentIndex + 1)).getD dummyPt
  let segmentDuration := nextPoint.timeMs - currentPoint.timeMs
  if 0 < segmentDuration then (T - currentPoint.timeMs) / segmentDuration else 0

/-- `TrajectoryRenderer.getInterpolatedPositionOnSmoothCurve(points,
currentTimeMs)` from `src/unnamed/part_000` lines 373-438: null on an
empty list, the waypoint itself for one waypoint, clamped linear blend
for two, and for three or more the cubic Bernstein blend on the
bracketing segment with the shared control points, with endpoint
clamping / null when no segment brackets the query time. -/
def getInterpolatedPositionOnSmoothCurve (points : List TPoint) (currentTimeMs : ℚ) :
    Option TPoint :=
  if points.length = 0 then none
  else if points.length = 1 then points.get? 0
  else if points.length = 2 then
    let p1 := (points.get? 0).getD dummyPt
    let p2 := (points.get? 1).getD dummyPt
    let timeDiff := p2.timeMs - p1.timeMs
    if timeDiff ≤ 0 then some p1
    else
      let t := max 0 (min 1 ((currentTimeMs - p1.timeMs) / timeDiff))
      some ⟨p1.x + (p2.x - p1.x) * t, p1.y + (p2.y - p1.y) * t, currentTimeMs⟩
  else
    match findBracketIdx points currentTimeMs with
    | none =>
      let p0 := (points.get? 0).getD dummyPt
      let plast := (points.get? (points.length - 1)).getD dummyPt
      if currentTimeMs ≤ p0.timeMs then some p0
      else if plast.timeMs ≤ currentTimeMs then some plast
      else none
    | some segmentIndex =>
      let t := segmentLocalT points segmentIndex currentTimeMs
      let cps := calculateBezierControlPoints points segmentIndex
      some ⟨bezierBlend cps.startX cps.cp1x cps.cp2x cps.endX t,
            bezierBlend cps.startY cps.cp1y cps.cp2y cps.endY t,
            currentTimeMs⟩

/-- The position dispatch of `TrajectoryRenderer.render`
(`src/unnamed/part_000` lines 195-212): the smooth-curve query runs only
when the requested mode is "bezier" and there are at least 3 waypoints,
otherwise `getInterpolatedPosition` is used with the requested mode. -/
def trajCurrentPosition (points : List TPoint) (currentTimeMs : ℚ)
    (interpolation : String) : Option TPoint :=
  if interpolation = "bezier" ∧ 3 ≤ points.length then
    getInterpolatedPositionOnSmoothCurve points currentTimeMs
  else
    getInterpolatedPosition points currentTimeMs interpolation

/-- The waypoints of the specification's trajectory scenario:
`(0,(0,0)), (1000,(1,0)), (2000,(1,1))`. -/
def demoPts : List TPoint := [⟨0, 0, 0⟩, ⟨1, 0, 1000⟩, ⟨1, 1, 2000⟩]

/-- Non-decreasing waypoint timestamps (the claims' "ordered waypoint
sequence"). -/
def chainLe (points : List TPoint) : Prop :=
  List.Chain' (fun a b => a.timeMs ≤ b.timeMs) points

/-- The state `VideoAnnotator._render` reads and writes
(`src/annotations/video-annotator.js` lines 123-151): the
`_lastRenderTime` watermark, instrumented with the list of reported
times at which a clear+draw pass actually ran. -/
structure RenderState where
  lastRenderTime : ℚ
  passes : List ℚ
deriving DecidableEq

/-- One call of `VideoAnnotator._render`: if the reported time equals the
watermark, return unchanged; otherwise update the watermark and, when
visible, perform the clear+draw pass (recorded in `passes`). -/
def renderStep (st : RenderState) (currentTime : ℚ) (isVisible : Bool) : RenderState :=
  if st.lastRenderTime = currentTime then st
  else
    let st1 : RenderState := { st with lastRenderTime := currentTime }
    if isVisible then { st1 with passes := st1.passes ++ [currentTime] } else st1

/-- A sequence of `_render` calls with visibility on. -/
def renderRun (st : RenderState) (times : List ℚ) : RenderState :=
  times.foldl (fun s t => renderStep s t true) st

/-- The constructor's initial watermark `-1` with no passes recorded. -/
def initRenderState : RenderState := ⟨-1, []⟩

/-- Outcome of one draw call of a renderer or visualizer: it either
returns or throws a JS error (carried as its message). -/
inductive DrawResult where
  | ok : DrawResult
  | throws : String → DrawResult
deriving DecidableEq

/-- The messages of the throwing draw calls, in order. -/
def thrownMessages : List DrawResult → List String
  | [] => []
  | DrawResult.ok :: rest => thrownMessages rest
  | DrawResult.throws m :: rest => m :: thrownMessages rest

/-- `BaseRenderer.renderAtTime` per-annotation loop
(`src/annotations/renderers/base-renderer.js` lines 77-83): each visible
annotation's `render` call is wrapped in try/catch, so a thrown error is
logged via `console.error` and the loop continues; the function always
returns normally.  Result: (number of draw calls attempted, log of caught
error messages). -/
def renderAtTimeModel : List DrawResult → ℕ × List String
  | [] => (0, [])
  | d :: rest =>
    let r := renderAtTimeModel rest
    match d with
    | DrawResult.ok => (r.1 + 1, r.2)
    | DrawResult.throws m => (r.1 + 1, m :: r.2)

/-- The legacy coordinator's per-frame loop
(`src/Archive/annotations/video-annotator.js` lines 365-375): every owned
renderer's `renderAtTime` is invoked, in insertion order. -/
def legacyFrameRender (renderers : List (List DrawResult)) : List (ℕ × List String) :=
  renderers.map renderAtTimeModel

/-- The current coordinator's per-frame loop
(`src/annotations/video-annotator.js` lines 147-149): each visualizer's
`display` runs with no surrounding try/catch, so the first thrown error
propagates out of `_render` and the remaining visualizers are not
invoked.  Result: (number of visualizers invoked, the propagated error
if any). -/
def visualizerFrameRender : List DrawResult → ℕ × Option String
  | [] => (0, none)
  | DrawResult.ok :: rest =>
    let r := visualizerFrameRender rest
    (r.1 + 1, r.2)
  | DrawResult.throws m :: _ => (1, some m)

/-- The geometry of a video element: natural pixel size
(`videoWidth`/`videoHeight`) and on-screen displayed size
(`getBoundingClientRect().width/height`). -/
structure VideoElem where
  videoWidth : ℕ
  videoHeight : ℕ
  displayWidth : ℕ
  displayHeight : ℕ
deriving DecidableEq

/-- `VideoAnnotator._resize` (`src/annotations/video-annotator.js` lines
116-120): the canvas internal buffer is set to the video's natural pixel
size. -/
def annotatorResizeDims (v : VideoElem) : ℕ × ℕ :=
  (v.videoWidth, v.videoHeight)

/-- `BaseRenderer._positionCanvas` (`src/annotations/renderers/
base-renderer.js` lines 249-260): the per-renderer canvas internal buffer
is set to `video.getBoundingClientRect()`'s width and height, the
on-screen displayed size. -/
def positionCanvasDims (v : VideoElem) : ℕ × ℕ :=
  (v.displayWidth, v.displayHeight)

/-- A JS number as the denormalization helpers see it: NaN or an exact
rational. -/
inductive JNum where
  | nan : JNum
  | num : ℚ → JNum
deriving DecidableEq

/-- JS multiplication on such numbers: NaN absorbs. -/
def JNum.mul : JNum → JNum → JNum
  | JNum.nan, _ => JNum.nan
  | _, JNum.nan => JNum.nan
  | JNum.num a, JNum.num b => JNum.num (a * b)

/-- JS falsiness of a number: NaN and 0 are falsy. -/
def JNum.falsy : JNum → Bool
  | JNum.nan => true
  | JNum.num a => decide (a = 0)

/-- The JS short-circuit `a || b` on numbers. -/
def jsOr (a b : JNum) : JNum :=
  if a.falsy then b else a

/-- A normalized point `{x, y}`. -/
structure JPoint where
  x : JNum
  y : JNum
deriving DecidableEq

/-- A normalized bounding box `{x, y, width, height}`. -/
structure JBox where
  x : JNum
  y : JNum
  width : JNum
  height : JNum
deriving DecidableEq

/-- A rectangle `{width, height}`. -/
structure JRect where
  width : JNum
  height : JNum
deriving DecidableEq

/-- `BaseRenderer._denormalizePoint(point, videoRect)` from
`base-renderer.js` lines 584-589: plain componentwise multiplication. -/
def denormalizePoint (point : JPoint) (videoRect : JRect) : JPoint :=
  ⟨point.x.mul videoRect.width, point.y.mul videoRect.height⟩

/-- `BaseRenderer._denormalizeBoundingBox(bbox, videoRect)` from
`base-renderer.js` lines 568-575: note the `(bbox.x || 0)` and
`(bbox.y || 0)` defaults, while `width`/`height` multiply directly. -/
def denormalizeBoundingBox (bbox : JBox) (videoRect : JRect) : JBox :=
  ⟨(jsOr bbox.x (JNum.num 0)).mul videoRect.width,
   (jsOr bbox.y (JNum.num 0)).mul videoRect.height,
   bbox.width.mul videoRect.width,
   bbox.height.mul videoRect.height⟩

/-- JS falsiness of an optional string field: absent (`undefined`) and
the empty string are falsy. -/
def strFalsy : Option String → Bool
  | none => true
  | some s => decide (s = "")

/-- The constructed record of the id-carrying model
(`src/annotations/annotation-manifest.js`). -/
structure AnnRec where
  id : String
  category : String
  timeRange : Option TimeRange
deriving DecidableEq

/-- The id-carrying `Annotation` constructor
(`src/annotations/annotation-manifest.js` lines 54-68): assigns the
fields, then throws "Annotation must have an id" when `id` is falsy and
"Annotation must have a category" when `category` is falsy. -/
def mkAnnRec (id category : Option String) (timeRange : Option TimeRange) :
    Except String AnnRec :=
  if strFalsy id then Except.error "Annotation must have an id"
  else if strFalsy category then Except.error "Annotation must have a category"
  else Except.ok ⟨id.getD "", category.getD "", timeRange⟩

/-- The constructed record of the positional model
(`src/unnamed/part_015`). -/
structure PosAnnRec where
  category : String
  startTimeMs : ℚ
  durationMs : ℚ
deriving DecidableEq

/-- The positional `Annotation` constructor (`src/unnamed/part_015` lines
1-16): only a falsy `category` throws; there is no id field at all. -/
def mkPosAnnRec (category : Option String) (startTimeMs durationMs : ℚ) :
    Except String PosAnnRec :=
  if strFalsy category then Except.error "Annotation must have a category"
  else Except.ok ⟨category.getD "", startTimeMs, durationMs⟩

/-- JS `<=` on numbers: any comparison involving NaN is false. -/
def JNum.le : JNum → JNum → Bool
  | JNum.num a, JNum.num b => decide (a ≤ b)
  | _, _ => false

/-- JS `<` on numbers: any comparison involving NaN is false. -/
def JNum.lt : JNum → JNum → Bool
  | JNum.num a, JNum.num b => decide (a < b)
  | _, _ => false

/-- JS addition: NaN absorbs. -/
def JNum.add : JNum → JNum → JNum
  | JNum.nan, _ => JNum.nan
  | _, JNum.nan => JNum.nan
  | JNum.num a, JNum.num b => JNum.num (a + b)

/-- JS subtraction: NaN absorbs. -/
def JNum.sub : JNum → JNum → JNum
  | JNum.nan, _ => JNum.nan
  | _, JNum.nan => JNum.nan
  | JNum.num a, JNum.num b => JNum.num (a - b)

/-- JS division as the embedded code exercises it: NaN absorbs and
numeric division is exact.  The one embedded call site (`linFactorJS`)
divides only under the source's `timeDiff > 0` guard, which a NaN or
non-positive denominator fails, so the JS zero-denominator result
(Infinity) never arises there; this model maps that unreached case to
NaN. -/
def JNum.div : JNum → JNum → JNum
  | JNum.nan, _ => JNum.nan
  | _, JNum.nan => JNum.nan
  | JNum.num a, JNum.num b => if b = 0 then JNum.nan else JNum.num (a / b)

/-- A trajectory waypoint as JS actually holds it: every field is a JS
number, so a NaN timestamp is expressible.  The all-rational `TPoint`
model is the restriction of this one to numeric fields. -/
structure TPointJS where
  x : JNum
  y : JNum
  timeMs : JNum
deriving DecidableEq

/-- Placeholder for in-range-guaranteed accesses, as `dummyPt`. -/
def dummyPtJS : TPointJS := ⟨JNum.num 0, JNum.num 0, JNum.num 0⟩

/-- `bracketPred` over JS numbers: a pair with a NaN timestamp never
brackets, since every NaN comparison is false. -/
def bracketPredJS (points : List TPointJS) (T : JNum) (i : ℕ) : Bool :=
  match points.get? i, points.get? (i + 1) with
  | some p, some q => p.timeMs.le T && T.le q.timeMs
  | _, _ => false

/-- The bracket scan of `BaseRenderer.getInterpolatedPosition` over JS
numbers. -/
def findBracketIdxJS (points : List TPointJS) (T : JNum) : Option ℕ :=
  (List.range (points.length - 1)).find? (bracketPredJS points T)

/-- `BaseRenderer.lerp` over JS numbers. -/
def lerpJS (start stop t : JNum) : JNum :=
  start.add ((stop.sub start).mul t)

/-- The interpolation factor over JS numbers: `timeDiff > 0` is false
for a NaN difference, giving `t = 0` exactly as in the source. -/
def linFactorJS (p q : TPointJS) (T : JNum) : JNum :=
  let timeDiff := q.timeMs.sub p.timeMs
  if (JNum.num 0).lt timeDiff then (T.sub p.timeMs).div timeDiff else JNum.num 0

/-- `BaseRenderer._getControlPoint` over JS numbers. -/
def getControlPointJS (points : List TPointJS) (index : ℕ) (isFirst : Bool) : JNum × JNum :=
  let current := (points.get? index).getD dummyPtJS
  if points.length < 3 then (current.x, current.y)
  else
    let prev := if 0 < index then (points.get? (index - 1)).getD current else current
    let next :=
      if isFirst then (points.get? (index + 1)).getD current
      else if index + 1 < points.length then (points.get? (index + 1)).getD current
      else current
    let tangentX := (next.x.sub prev.x).mul (JNum.num (3 / 10))
    let tangentY := (next.y.sub prev.y).mul (JNum.num (3 / 10))
    let direction : JNum := if isFirst then JNum.num 1 else JNum.num (-1)
    (current.x.add (direction.mul tangentX), current.y.add (direction.mul tangentY))

/-- `BaseRenderer._bezierInterpolation` over JS numbers (products and
sums associated to the left, as JS evaluates them). -/
def bezierInterpolationJS (points : List TPointJS) (beforeIndex afterIndex : ℕ)
    (t : JNum) : TPointJS :=
  let p1 := (points.get? beforeIndex).getD dummyPtJS
  let p2 := (points.get? afterIndex).getD dummyPtJS
  let c1 := getControlPointJS points beforeIndex true
  let c2 := getControlPointJS points afterIndex false
  let t2 := t.mul t
  let t3 := t2.mul t
  let mt := (JNum.num 1).sub t
  let mt2 := mt.mul mt
  let mt3 := mt2.mul mt
  ⟨(((mt3.mul p1.x).add ((((JNum.num 3).mul mt2).mul t).mul c1.1)).add
      ((((JNum.num 3).mul mt).mul t2).mul c2.1)).add (t3.mul p2.x),
   (((mt3.mul p1.y).add ((((JNum.num 3).mul mt2).mul t).mul c1.2)).add
      ((((JNum.num 3).mul mt).mul t2).mul c2.2)).add (t3.mul p2.y),
   p1.timeMs.add (t.mul (p2.timeMs.sub p1.timeMs))⟩

/-- `BaseRenderer.getInterpolatedPosition` over JS numbers: the same
statement-for-statement embedding as `getInterpolatedPosition`, but with
NaN expressible in every numeric field.  This is the model in which the
source's final `return null` (line 446) is reachable: a NaN timestamp
makes every comparison against it false, so the scan can fail even for
a query time strictly inside the overall range. -/
def getInterpolatedPositionJS (points : List TPointJS) (currentTimeMs : JNum)
    (interpolation : String) : Option TPointJS :=
  if points.length = 0 then none
  else if points.length = 1 then points.get? 0
  else
    match findBracketIdxJS points currentTimeMs with
    | none =>
      let p0 := (points.get? 0).getD dummyPtJS
      let plast := (points.get? (points.length - 1)).getD dummyPtJS
      if currentTimeMs.le p0.timeMs then some p0
      else if plast.timeMs.le currentTimeMs then some plast
      else none
    | some i =>
      let bp := (points.get? i).getD dummyPtJS
      let ap := (points.get? (i + 1)).getD dummyPtJS
      let t := linFactorJS bp ap currentTimeMs
      if interpolation = "bezier" ∧ 3 ≤ points.length then
        some (bezierInterpolationJS points i (i + 1) t)
      else
        some ⟨lerpJS bp.x ap.x t, lerpJS bp.y ap.y t, currentTimeMs⟩

/-- Waypoints at times 0, NaN, 10: the middle NaN timestamp defeats the
bracket scan for any query time, so a query at 5 — strictly inside the
overall range 0..10 — reaches the null fallthrough. -/
def nanDemoPts : List TPointJS :=
  [⟨JNum.num 0, JNum.num 0, JNum.num 0⟩,
   ⟨JNum.num 1, JNum.num 0, JNum.nan⟩,
   ⟨JNum.num 1, JNum.num 1, JNum.num 10⟩]

/-- Claim C1: an annotation is active (visible) at time T exactly when
`startTimeMs ≤ T ≤ startTimeMs + durationMs`; in time-range form both
visibility predicates return true iff `startMs ≤ T ≤ endMs`, closed at
both ends, and the annotation starting at 1000 ms with duration 4000 ms
is inactive at 500 and 5001 and active at 1000 and 5000. -/
theorem claim_C1_visibility_closed_interval :
    (∀ (s d T : ℚ),
        isVisibleAt (some ⟨some s, some (s + d)⟩) T = true ↔ s ≤ T ∧ T ≤ s + d)
    ∧ (∀ (s e T : ℚ),
        isAnnVisibleR (some ⟨some s, some e⟩) T = true ↔ s ≤ T ∧ T ≤ e)
    ∧ isVisibleAt (some ⟨some 1000, some 5000⟩) 500 = false
    ∧ isVisibleAt (some ⟨some 1000, some 5000⟩) 1000 = true
    ∧ isVisibleAt (some ⟨some 1000, some 5000⟩) 5000 = true
    ∧ isVisibleAt (some ⟨some 1000, some 5000⟩) 5001 = false := by
  refine ⟨?_, ?_, by decide, by decide, by decide, by decide⟩
  · intro s d T
    simp [isVisibleAt]
  · intro s e T
    simp [isAnnVisibleR]

/-- A successful bracket scan yields in-range indices and a pair of
waypoints enclosing the query time. -/
theorem bracket_of_findBracketIdx {points : List TPoint} {T : ℚ} {i : ℕ}
    (h : findBracketIdx points T = some i) :
    i + 1 < points.length ∧ ∃ p q, points.get? i = some p ∧ points.get? (i + 1) = some q ∧
      p.timeMs ≤ T ∧ T ≤ q.timeMs := by
  have hmem : i ∈ List.range (points.length - 1) := List.mem_of_find?_eq_some h
  have hi : i < points.length - 1 := List.mem_range.mp hmem
  have hpred : bracketPred points T i = true := List.find?_some h
  have hlen : i + 1 < points.length := by omega
  refine ⟨hlen, ?_⟩
  unfold bracketPred at hpred
  cases hp : points.get? i with
  | none => rw [hp] at hpred; simp at hpred
  | some p =>
    cases hq : points.get? (i + 1) with
    | none => rw [hp, hq] at hpred; simp at hpred
    | some q =>
      rw [hp, hq] at hpred
      simp only [Bool.and_eq_true, decide_eq_true_eq] at hpred
      exact ⟨p, q, rfl, rfl, hpred.1, hpred.2⟩

/-- On a list with non-decreasing timestamps, earlier entries have
timestamps at most those of later entries. -/
theorem chainLe_timeMs_le {points : List TPoint} (h : chainLe points) {i j : ℕ}
    (hij : i ≤ j) {p q : TPoint} (hp : points.get? i = some p)
    (hq : points.get? j = some q) : p.timeMs ≤ q.timeMs := by
  rcases eq_or_lt_of_le hij with rfl | hlt
  · rw [hp] at hq
    injection hq with hq
    rw [hq]
  · obtain ⟨hi, hpe⟩ := List.get?_eq_some.mp hp
    obtain ⟨hj, hqe⟩ := List.get?_eq_some.mp hq
    haveI : IsTrans TPoint (fun a b => a.timeMs ≤ b.timeMs) :=
      ⟨fun _ _ _ hab hbc => le_trans hab hbc⟩
    have hpw : List.Pairwise (fun a b => a.timeMs ≤ b.timeMs) points :=
      List.chain'_iff_pairwise.mp h
    have hr := List.pairwise_iff_get.mp hpw ⟨i, hi⟩ ⟨j, hj⟩ hlt
    rw [hpe, hqe] at hr
    exact hr

/-- If the query time precedes the first timestamp of a non-decreasing
list, the bracket scan fails. -/
theorem findBracketIdx_eq_none_of_lt_first {points : List TPoint} {T : ℚ} {p0 : TPoint}
    (h : chainLe points) (hp0 : points.get? 0 = some p0) (hT : T < p0.timeMs) :
    findBracketIdx points T = none := by
  unfold findBracketIdx
  rw [List.find?_eq_none]
  intro i hi
  have hilen : i < points.length - 1 := List.mem_range.mp hi
  have hlt : i < points.length := by omega
  obtain ⟨p, hp⟩ : ∃ p, points.get? i = some p := by
    rw [List.get?_eq_get hlt]
    exact ⟨_, rfl⟩
  have hle : p0.timeMs ≤ p.timeMs := chainLe_timeMs_le h (Nat.zero_le i) hp0 hp
  unfold bracketPred
  rw [hp]
  cases hq : points.get? (i + 1) with
  | none => simp
  | some q =>
    simp only [Bool.and_eq_true, decide_eq_true_eq, not_and]
    intro hpt
    linarith

/-- If the query time exceeds the last timestamp of a non-decreasing
list, the bracket scan fails. -/
theorem findBracketIdx_eq_none_of_last_lt {points : List TPoint} {T : ℚ} {pl : TPoint}
    (h : chainLe points) (hpl : points.get? (points.length - 1) = some pl)
    (hT : pl.timeMs < T) : findBracketIdx points T = none := by
  unfold findBracketIdx
  rw [List.find?_eq_none]
  intro i hi
  have hilen : i < points.length - 1 := List.mem_range.mp hi
  have hlt : i + 1 < points.length := by omega
  obtain ⟨q, hq⟩ : ∃ q, points.get? (i + 1) = some q := by
    rw [List.get?_eq_get hlt]
    exact ⟨_, rfl⟩
  have hle : q.timeMs ≤ pl.timeMs :=
    chainLe_timeMs_le h (by omega) hq hpl
  unfold bracketPred
  rw [hq]
  cases hp : points.get? i with
  | none => simp
  | some p =>
    simp only [Bool.and_eq_true, decide_eq_true_eq, not_and]
    intro _
    linarith

/-- Discrete crossing argument: over rational timestamps, a query time
at or after the first timestamp and strictly before the last always has
a bracketing pair, monotonic or not — walking the list, the predicate
`p.timeMs <= T` holds at index 0 and fails at the last index, so it
flips somewhere, and every flip is a bracket.  Hence the source's final
`return null` is unreachable for numeric timestamps. -/
theorem findBracketIdx_ne_none_of_inside {points : List TPoint} {T : ℚ} {p0 pl : TPoint}
    (hp0 : points.get? 0 = some p0) (hpl : points.get? (points.length - 1) = some pl)
    (h1 : p0.timeMs ≤ T) (h2 : T < pl.timeMs) :
    findBracketIdx points T ≠ none := by
  intro hnone
  rw [findBracketIdx, List.find?_eq_none] at hnone
  have hpos : 0 < points.length := (List.get?_eq_some.mp hp0).1
  have key : ∀ i, i < points.length → ∀ p, points.get? i = some p → p.timeMs ≤ T := by
    intro i
    induction i with
    | zero =>
      intro _ p hp
      rw [hp0] at hp
      injection hp with hp
      rw [← hp]
      exact h1
    | succ k ih =>
      intro hk p hp
      have hklen : k < points.length := by omega
      obtain ⟨pk, hpk⟩ : ∃ pk, points.get? k = some pk := by
        rw [List.get?_eq_get hklen]
        exact ⟨_, rfl⟩
      have hkT : pk.timeMs ≤ T := ih hklen pk hpk
      have hmem : k ∈ List.range (points.length - 1) := List.mem_range.mpr (by omega)
      have hfalse := hnone k hmem
      unfold bracketPred at hfalse
      rw [hpk, hp] at hfalse
      simp only [Bool.and_eq_true, decide_eq_true_eq, not_and] at hfalse
      have hnle := hfalse hkT
      linarith [not_le.mp hnle]
  have hlast := key (points.length - 1) (by omega) pl hpl
  linarith

/-- Claim C2: linear trajectory interpolation blends the bracketing pair
with factor `t = (T - Pi.timeMs)/(Pi+1.timeMs - Pi.timeMs)` (0 when the
denominator is 0); on an ordered sequence a query before the first or
after the last waypoint clamps to that endpoint; over rational
timestamps a query inside the overall range always has a bracketing
pair — monotonic or not — so the no-bracket case needs a NaN timestamp,
and in the JS-number model, where NaN is expressible, a query strictly
inside the overall range with no bracketing pair returns null (witnessed
on waypoints at times 0, NaN, 10 queried at 5); on the scenario
waypoints the query at 500 gives (0.5, 0) and at 1500 gives (1, 0.5). -/
theorem claim_C2_linear_interpolation :
    (∀ (points : List TPoint) (T : ℚ) (i : ℕ) (p q : TPoint),
        findBracketIdx points T = some i →
        points.get? i = some p → points.get? (i + 1) = some q →
        p.timeMs ≤ q.timeMs ∧
        getInterpolatedPosition points T "linear" =
          some ⟨lerpQ p.x q.x (linFactor p q T), lerpQ p.y q.y (linFactor p q T), T⟩)
    ∧ (∀ (points : List TPoint) (T : ℚ) (p0 : TPoint),
        chainLe points → points.get? 0 = some p0 → T < p0.timeMs →
        getInterpolatedPosition points T "linear" = some p0)
    ∧ (∀ (points : List TPoint) (T : ℚ) (pl : TPoint),
        chainLe points → points.get? (points.length - 1) = some pl → pl.timeMs < T →
        getInterpolatedPosition points T "linear" = some pl)
    ∧ (∀ (points : List TPoint) (T : ℚ) (p0 pl : TPoint),
        points.get? 0 = some p0 → points.get? (points.length - 1) = some pl →
        p0.timeMs ≤ T → T < pl.timeMs →
        findBracketIdx points T ≠ none)
    ∧ (∀ (points : List TPointJS) (T : JNum) (p0 pl : TPointJS),
        findBracketIdxJS points T = none →
        points.get? 0 = some p0 → points.get? (points.length - 1) = some pl →
        p0.timeMs.lt T = true → T.lt pl.timeMs = true →
        getInterpolatedPositionJS points T "linear" = none)
    ∧ findBracketIdxJS nanDemoPts (JNum.num 5) = none
    ∧ ((nanDemoPts.get? 0).getD dummyPtJS).timeMs.lt (JNum.num 5) = true
    ∧ (JNum.num 5).lt
        ((nanDemoPts.get? (nanDemoPts.length - 1)).getD dummyPtJS).timeMs = true
    ∧ getInterpolatedPositionJS nanDemoPts (JNum.num 5) "linear" = none
    ∧ getInterpolatedPosition demoPts 500 "linear" = some ⟨1/2, 0, 500⟩
    ∧ getInterpolatedPosition demoPts 1500 "linear" = some ⟨1, 1/2, 1500⟩ := by
  have hf500 : findBracketIdx demoPts 500 = some 0 := by decide
  have hf1500 : findBracketIdx demoPts 1500 = some 1 := by decide
  refine ⟨?_, ?_, ?_, ?_, ?_, by decide, by decide, by decide, by decide,
    by simp only [getInterpolatedPosition, hf500]
       norm_num [demoPts, dummyPt, linFactor, lerpQ]
       exact fun h => absurd h (by decide),
    by simp only [getInterpolatedPosition, hf1500]
       norm_num [demoPts, dummyPt, linFactor, lerpQ]
       exact fun h => absurd h (by decide)⟩
  · intro points T i p q hfind hp hq
    obtain ⟨hlen, p', q', hp', hq', hle1, hle2⟩ := bracket_of_findBracketIdx hfind
    rw [hp] at hp'
    rw [hq] at hq'
    injection hp' with hp'
    injection hq' with hq'
    subst hp'
    subst hq'
    refine ⟨le_trans hle1 hle2, ?_⟩
    have h0 : ¬ points.length = 0 := by omega
    have h1 : ¬ points.length = 1 := by omega
    simp only [getInterpolatedPosition, if_neg h0, if_neg h1, hfind, hp, hq,
      Option.getD_some]
    rw [if_neg]
    intro hc
    exact absurd hc.1 (by decide)
  · intro points T p0 hchain hp0 hT
    have hpos : 0 < points.length := (List.get?_eq_some.mp hp0).1
    have h0 : ¬ points.length = 0 := by omega
    by_cases h1 : points.length = 1
    · simp only [getInterpolatedPosition, if_neg h0, if_pos h1]
      exact hp0
    · have hnone := findBracketIdx_eq_none_of_lt_first hchain hp0 hT
      simp only [getInterpolatedPosition, if_neg h0, if_neg h1, hnone, hp0,
        Option.getD_some]
      rw [if_pos (le_of_lt hT)]
  · intro points T pl hchain hpl hT
    have hpos : 0 < points.length := by
      have := (List.get?_eq_some.mp hpl).1
      omega
    have h0 : ¬ points.length = 0 := by omega
    by_cases h1 : points.length = 1
    · simp only [getInterpolatedPosition, if_neg h0, if_pos h1]
      rw [h1] at hpl
      exact hpl
    · have hnone := findBracketIdx_eq_none_of_last_lt hchain hpl hT
      obtain ⟨p0, hp0⟩ : ∃ p0, points.get? 0 = some p0 := by
        rw [List.get?_eq_get hpos]
        exact ⟨_, rfl⟩
      have hp0l : p0.timeMs ≤ pl.timeMs :=
        chainLe_timeMs_le hchain (Nat.zero_le _) hp0 hpl
      simp only [getInterpolatedPosition, if_neg h0, if_neg h1, hnone, hp0, hpl,
        Option.getD_some]
      rw [if_neg (by linarith), if_pos (le_of_lt hT)]
  · intro points T p0 pl hp0 hpl h1 h2
    exact findBracketIdx_ne_none_of_inside hp0 hpl h1 h2
  · intro points T p0 pl hfind hp0 hpl h1 h2
    obtain ⟨a, b, hp0t, hT, hab⟩ :
        ∃ a b, p0.timeMs = JNum.num a ∧ T = JNum.num b ∧ a < b := by
      cases hx : p0.timeMs with
      | nan =>
        rw [hx] at h1
        simp [JNum.lt] at h1
      | num a =>
        cases hy : T with
        | nan =>
          rw [hx, hy] at h1
          simp [JNum.lt] at h1
        | num b =>
          rw [hx, hy] at h1
          simp only [JNum.lt, decide_eq_true_eq] at h1
          exact ⟨a, b, rfl, rfl, h1⟩
    obtain ⟨c, hplt, hbc⟩ : ∃ c, pl.timeMs = JNum.num c ∧ b < c := by
      cases hz : pl.timeMs with
      | nan =>
        rw [hz, hT] at h2
        simp [JNum.lt] at h2
      | num c =>
        rw [hz, hT] at h2
        simp only [JNum.lt, decide_eq_true_eq] at h2
        exact ⟨c, rfl, h2⟩
    have hpos : 0 < points.length := (List.get?_eq_some.mp hp0).1
    have h0 : ¬ points.length = 0 := by omega
    by_cases hlen1 : points.length = 1
    · exfalso
      have e0 : (1 : ℕ) - 1 = 0 := rfl
      rw [hlen1, e0] at hpl
      rw [hp0] at hpl
      injection hpl with e
      rw [← e] at hplt
      rw [hp0t] at hplt
      injection hplt with e2
      linarith
    · have c1 : T.le p0.timeMs = false := by
        rw [hT, hp0t]
        simp only [JNum.le, decide_eq_false_iff_not, not_le]
        linarith
      have c2 : pl.timeMs.le T = false := by
        rw [hT, hplt]
        simp only [JNum.le, decide_eq_false_iff_not, not_le]
        linarith
      simp only [getInterpolatedPositionJS, if_neg h0, if_neg hlen1, hfind, hp0, hpl,
        Option.getD_some]
      simp [c1, c2]

/-- Claim C3: the cubic-curve control points are the segment endpoints
plus the 0.2-smoothed neighbour tangents (previous waypoint for the
first control point, next-next for the second, zero tangent at sequence
boundaries) — `calculateBezierControlPoints` equals the spec-worded
`specCtrlPts` — and the query path uses that identical computation, so
for every waypoint list and query time bracketed by segment `i`, the
queried marker position is exactly the stroked curve's point at the
segment-local parameter. -/
theorem claim_C3_query_lies_on_stroked_curve :
    (∀ (points : List TPoint) (segmentIndex : ℕ),
        calculateBezierControlPoints points segmentIndex = specCtrlPts points segmentIndex)
    ∧ (∀ (points : List TPoint) (T : ℚ) (i : ℕ),
        3 ≤ points.length → findBracketIdx points T = some i →
        getInterpolatedPositionOnSmoothCurve points T =
          some ⟨(strokedCurvePoint points i (segmentLocalT points i T)).1,
                (strokedCurvePoint points i (segmentLocalT points i T)).2, T⟩) := by
  constructor
  · intro points i
    simp only [calculateBezierControlPoints, specCtrlPts]
    split_ifs with h1 h2 h2 <;> simp [CtrlPts.mk.injEq]
  · intro points T i h3 hfind
    have h0 : ¬ points.length = 0 := by omega
    have h1 : ¬ points.length = 1 := by omega
    have h2 : ¬ points.length = 2 := by omega
    simp only [getInterpolatedPositionOnSmoothCurve, if_neg h0, if_neg h1, if_neg h2, hfind]
    rfl

/-- Claim C4: the cubic Bernstein blend at t=0 gives the start endpoint
and at t=1 the end endpoint, for arbitrary control points; hence for any
waypoint list of length at least 3 and any segment, both cubic
evaluators return exactly the segment's start waypoint at segment-local
t=0 and its end waypoint at t=1 (exactly over the rationals, which is
stronger than up to floating-point epsilon). -/
theorem claim_C4_bezier_endpoint_exactness :
    (∀ (p0 c1 c2 p1 : ℚ),
        bezierBlend p0 c1 c2 p1 0 = p0 ∧ bezierBlend p0 c1 c2 p1 1 = p1)
    ∧ (∀ (points : List TPoint) (i : ℕ) (p q : TPoint),
        3 ≤ points.length → points.get? i = some p → points.get? (i + 1) = some q →
        bezierInterpolation points i (i + 1) 0 = ⟨p.x, p.y, p.timeMs⟩ ∧
        bezierInterpolation points i (i + 1) 1 = ⟨q.x, q.y, q.timeMs⟩ ∧
        strokedCurvePoint points i 0 = (p.x, p.y) ∧
        strokedCurvePoint points i 1 = (q.x, q.y)) := by
  constructor
  · intro p0 c1 c2 p1
    exact ⟨by simp [bezierBlend], by simp [bezierBlend]⟩
  · intro points i p q _ hp hq
    refine ⟨?_, ?_, ?_, ?_⟩
    · simp only [bezierInterpolation, hp, Option.getD_some, TPoint.mk.injEq]
      refine ⟨by ring, by ring, by ring⟩
    · simp only [bezierInterpolation, hq, Option.getD_some, TPoint.mk.injEq]
      refine ⟨by ring, by ring, by ring⟩
    · simp only [strokedCurvePoint, calculateBezierControlPoints, hp, hq,
        Option.getD_some, bezierBlend, Prod.mk.injEq]
      constructor <;> ring
    · simp only [strokedCurvePoint, calculateBezierControlPoints, hp, hq,
        Option.getD_some, bezierBlend, Prod.mk.injEq]
      constructor <;> ring

/-- With fewer than 3 waypoints the interpolation mode cannot reach the
cubic branch, so `getInterpolatedPosition` ignores the requested mode. -/
theorem getInterpolatedPosition_mode_irrelevant {points : List TPoint}
    (hlen : points.length < 3) (mode : String) (T : ℚ) :
    getInterpolatedPosition points T mode = getInterpolatedPosition points T "linear" := by
  have hc : ¬ (mode = "bezier" ∧ 3 ≤ points.length) := by
    intro hm
    omega
  have hc' : ¬ (("linear" : String) = "bezier" ∧ 3 ≤ points.length) := by
    intro hm
    omega
  unfold getInterpolatedPosition
  simp only [if_neg hc, if_neg hc']

/-- Claim C5: trajectory interpolation degenerate cases — no waypoints
gives null, one waypoint gives that waypoint, and with two waypoints (or
any list shorter than 3) the render dispatch produces the linear-mode
output for every requested mode, so "bezier"/"curve" and "linear" agree;
concretely instantiated on a two-waypoint list. -/
theorem claim_C5_degenerate_cases :
    (∀ (mode : String) (T : ℚ), trajCurrentPosition [] T mode = none)
    ∧ (∀ (p : TPoint) (mode : String) (T : ℚ), trajCurrentPosition [p] T mode = some p)
    ∧ (∀ (p q : TPoint) (mode : String) (T : ℚ),
        trajCurrentPosition [p, q] T mode = getInterpolatedPosition [p, q] T "linear")
    ∧ (∀ (points : List TPoint) (mode : String) (T : ℚ), points.length < 3 →
        trajCurrentPosition points T mode = getInterpolatedPosition points T "linear")
    ∧ trajCurrentPosition [⟨0, 0, 0⟩, ⟨1, 0, 1000⟩] 500 "bezier"
        = trajCurrentPosition [⟨0, 0, 0⟩, ⟨1, 0, 1000⟩] 500 "linear" := by
  have key : ∀ (points : List TPoint) (mode : String) (T : ℚ), points.length < 3 →
      trajCurrentPosition points T mode = getInterpolatedPosition points T "linear" := by
    intro points mode T hlen
    unfold trajCurrentPosition
    have hc : ¬ (mode = "bezier" ∧ 3 ≤ points.length) := by
      intro hm
      omega
    rw [if_neg hc]
    exact getInterpolatedPosition_mode_irrelevant hlen mode T
  refine ⟨?_, ?_, ?_, key, ?_⟩
  · intro mode T
    rw [key [] mode T (by simp)]
    rfl
  · intro p mode T
    rw [key [p] mode T (by simp)]
    rfl
  · intro p q mode T
    exact key [p, q] mode T (by simp)
  · rw [key _ "bezier" 500 (by simp), key _ "linear" 500 (by simp)]

/-- Claim C6 (amended): a call whose reported time equals the watermark
is a no-op for any visibility; a call with a different reported time
updates the watermark and, when visible, performs exactly one clear+draw
pass, so two consecutive calls with the same reported time perform
exactly one pass; in general one call adds a pass exactly when the
reported time differs from the watermark and the annotator is visible. -/
theorem claim_C6_watermark_dedup :
    (∀ (st : RenderState) (t : ℚ) (vis : Bool),
        st.lastRenderTime = t → renderStep st t vis = st)
    ∧ (∀ (st : RenderState) (t : ℚ),
        st.lastRenderTime ≠ t → renderStep st t true = ⟨t, st.passes ++ [t]⟩)
    ∧ (∀ (st : RenderState) (t : ℚ),
        st.lastRenderTime ≠ t →
        (renderStep (renderStep st t true) t true).passes = st.passes ++ [t])
    ∧ (∀ (st : RenderState) (t : ℚ) (vis : Bool),
        (renderStep st t vis).passes.length =
          st.passes.length + (if st.lastRenderTime ≠ t ∧ vis = true then 1 else 0)) := by
  refine ⟨?_, ?_, ?_, ?_⟩
  · intro st t vis h
    simp [renderStep, h]
  · intro st t h
    simp [renderStep, h]
  · intro st t h
    simp [renderStep, h]
  · intro st t vis
    by_cases hw : st.lastRenderTime = t
    · simp [renderStep, hw]
    · cases vis <;> simp [renderStep, hw]

/-- Claim C6 counterexample: the watermark only remembers the previous
reported time, so over the call sequence 1000, 2000, 1000 the time 1000
triggers two clear+draw passes — "at most one render pass per distinct
reported time" fails once a time recurs after an intervening different
time. -/
theorem claim_C6_cex_revisited_time :
    (renderRun initRenderState [1000, 2000, 1000]).passes = [1000, 2000, 1000] ∧
    ¬ (renderRun initRenderState [1000, 2000, 1000]).passes.count 1000 ≤ 1 := by
  constructor
  · decide
  · decide

/-- Claim C7 (amended): in the legacy renderer pipeline every
per-annotation draw call is attempted — `renderAtTime` catches and logs
each thrown error and always returns normally — and the legacy
coordinator invokes every owned renderer in insertion order; the current
visualizer coordinator's loop, by contrast, has no catch, so the first
throwing visualizer is the last one invoked and its error propagates to
the caller. -/
theorem claim_C7_error_containment :
    (∀ (anns : List DrawResult),
        (renderAtTimeModel anns).1 = anns.length ∧
        (renderAtTimeModel anns).2 = thrownMessages anns)
    ∧ (∀ (renderers : List (List DrawResult)),
        (legacyFrameRender renderers).length = renderers.length ∧
        ∀ (k : ℕ) (r : List DrawResult), renderers.get? k = some r →
          (legacyFrameRender renderers).get? k = some (renderAtTimeModel r))
    ∧ (∀ (pre post : List DrawResult) (m : String),
        (∀ d ∈ pre, d = DrawResult.ok) →
        visualizerFrameRender (pre ++ DrawResult.throws m :: post) =
          (pre.length + 1, some m)) := by
  refine ⟨?_, ?_, ?_⟩
  · intro anns
    induction anns with
    | nil => exact ⟨rfl, rfl⟩
    | cons d rest ih =>
      cases d with
      | ok => simp [renderAtTimeModel, thrownMessages, ih.1, ih.2]
      | throws m => simp [renderAtTimeModel, thrownMessages, ih.1, ih.2]
  · intro renderers
    refine ⟨by simp [legacyFrameRender], ?_⟩
    intro k r hk
    unfold legacyFrameRender
    rw [List.get?_map, hk]
    rfl
  · intro pre post m hpre
    induction pre with
    | nil => simp [visualizerFrameRender]
    | cons d rest ih =>
      have hd : d = DrawResult.ok := hpre d (by simp)
      subst hd
      have ih' := ih (fun d hd => hpre d (by simp [hd]))
      simp [visualizerFrameRender, ih']

/-- Claim C7 counterexample: in the current coordinator
(`VideoAnnotator._render`), with three visualizers of which the second
throws, only two are invoked and the error propagates to the caller —
the remaining visualizer is blocked for that frame. -/
theorem claim_C7_cex_uncaught_visualizer_error :
    visualizerFrameRender [DrawResult.ok, DrawResult.throws "boom", DrawResult.ok]
      = (2, some "boom") ∧
    (visualizerFrameRender
        [DrawResult.ok, DrawResult.throws "boom", DrawResult.ok]).1 <
      [DrawResult.ok, DrawResult.throws "boom", DrawResult.ok].length := by
  constructor
  · rfl
  · decide

/-- Claim C8 (amended): the coordinator's resize handler sets the canvas
internal buffer to the video's natural pixel size (1920x1080 in the
scenario), decoupled from the displayed size; the legacy per-renderer
canvas positioning instead copies the on-screen displayed size into the
internal buffer. -/
theorem claim_C8_resize_dimensions :
    (∀ (v : VideoElem), annotatorResizeDims v = (v.videoWidth, v.videoHeight))
    ∧ annotatorResizeDims ⟨1920, 1080, 960, 540⟩ = (1920, 1080)
    ∧ annotatorResizeDims ⟨1920, 1080, 960, 540⟩ ≠ (960, 540)
    ∧ (∀ (v : VideoElem), positionCanvasDims v = (v.displayWidth, v.displayHeight)) := by
  exact ⟨fun _ => rfl, rfl, by decide, fun _ => rfl⟩

/-- Claim C8 counterexample: after `BaseRenderer._positionCanvas` runs on
a video with natural size 1920x1080 displayed at 960x540, the renderer
canvas's internal buffer is 960x540, the displayed size, not the natural
1920x1080. -/
theorem claim_C8_cex_position_canvas_display_size :
    positionCanvasDims ⟨1920, 1080, 960, 540⟩ = (960, 540) ∧
    positionCanvasDims ⟨1920, 1080, 960, 540⟩ ≠ (1920, 1080) := by
  exact ⟨rfl, by decide⟩

/-- NaN absorbs on the left of JS multiplication. -/
theorem JNum.nan_mul (b : JNum) : JNum.mul JNum.nan b = JNum.nan := by
  cases b <;> rfl

/-- NaN absorbs on the right of JS multiplication. -/
theorem JNum.mul_nan (a : JNum) : JNum.mul a JNum.nan = JNum.nan := by
  cases a <;> rfl

/-- Claim C9 (amended): both denormalization helpers are total (they
never throw); `_denormalizePoint` propagates a NaN coordinate to the
corresponding output field, and `_denormalizeBoundingBox` propagates NaN
through its `width`/`height` fields, but its `(bbox.x || 0)` and
`(bbox.y || 0)` defaults replace a NaN (or zero) `x`/`y` with 0, so a
NaN input there produces pixel 0 instead of NaN. -/
theorem claim_C9_denormalize_nan :
    (∀ (y w h : JNum), (denormalizePoint ⟨JNum.nan, y⟩ ⟨w, h⟩).x = JNum.nan)
    ∧ (∀ (x w h : JNum), (denormalizePoint ⟨x, JNum.nan⟩ ⟨w, h⟩).y = JNum.nan)
    ∧ (∀ (b : JBox) (r : JRect), b.width = JNum.nan →
        (denormalizeBoundingBox b r).width = JNum.nan)
    ∧ (∀ (b : JBox) (r : JRect), b.height = JNum.nan →
        (denormalizeBoundingBox b r).height = JNum.nan)
    ∧ (∀ (y wd hg : JNum) (w h : ℚ),
        (denormalizeBoundingBox ⟨JNum.nan, y, wd, hg⟩ ⟨JNum.num w, JNum.num h⟩).x
          = JNum.num 0) := by
  refine ⟨?_, ?_, ?_, ?_, ?_⟩
  · intro y w h
    exact JNum.nan_mul w
  · intro x w h
    exact JNum.nan_mul h
  · intro b r hb
    simp only [denormalizeBoundingBox, hb]
    exact JNum.nan_mul r.width
  · intro b r hb
    simp only [denormalizeBoundingBox, hb]
    exact JNum.nan_mul r.height
  · intro y wd hg w h
    simp [denormalizeBoundingBox, jsOr, JNum.falsy, JNum.mul]

/-- Claim C9 counterexample: `_denormalizeBoundingBox` on a box whose
`x` is NaN with a 100x100 rect returns `x = 0` — the `|| 0` default
substitutes 0 for the NaN instead of propagating it. -/
theorem claim_C9_cex_nan_x_substituted :
    denormalizeBoundingBox ⟨JNum.nan, JNum.num (1/10), JNum.num (1/5), JNum.num (3/10)⟩
        ⟨JNum.num 100, JNum.num 100⟩
      = ⟨JNum.num 0, JNum.num 10, JNum.num 20, JNum.num 30⟩ ∧
    (denormalizeBoundingBox ⟨JNum.nan, JNum.num (1/10), JNum.num (1/5), JNum.num (3/10)⟩
        ⟨JNum.num 100, JNum.num 100⟩).x ≠ JNum.nan := by
  constructor
  · simp [denormalizeBoundingBox, jsOr, JNum.falsy, JNum.mul, JBox.mk.injEq]
    norm_num
  · simp [denormalizeBoundingBox, jsOr, JNum.falsy, JNum.mul]

/-- Claim C10: the id-carrying Annotation constructor throws when id is
missing (absent key) or empty, even with a non-empty category — so the
external-interface record shape with no id field is always rejected —
and throws on a missing category; the positional constructor accepts
construction with only a non-empty category. -/
theorem claim_C10_constructor_id_requirement :
    (∀ (category : Option String) (tr : Option TimeRange),
        mkAnnRec none category tr = Except.error "Annotation must have an id")
    ∧ (∀ (category : Option String) (tr : Option TimeRange),
        mkAnnRec (some "") category tr = Except.error "Annotation must have an id")
    ∧ (∀ (id : Option String) (tr : Option TimeRange),
        strFalsy id = false →
        mkAnnRec id none tr = Except.error "Annotation must have a category")
    ∧ mkAnnRec none (some "detection") none = Except.error "Annotation must have an id"
    ∧ (∀ (s d : ℚ), mkPosAnnRec (some "detection") s d = Except.ok ⟨"detection", s, d⟩)
    ∧ (∀ (c : String) (s d : ℚ), c ≠ "" →
        mkPosAnnRec (some c) s d = Except.ok ⟨c, s, d⟩) := by
  refine ⟨?_, ?_, ?_, by rfl, ?_, ?_⟩
  · intro category tr
    rfl
  · intro category tr
    rfl
  · intro id tr hid
    simp [mkAnnRec, hid]
    rfl
  · intro s d
    rfl
  · intro c s d hc
    simp [mkPosAnnRec, strFalsy, hc]
